import Mathlib

/-!
Verification of `.github/scripts/youtube_to_discord.py`.

The script polls the YouTube Data API, deduplicates against a local SQLite
store, applies date and keyword filters, persists accepted videos and posts
notifications to Discord webhooks.  This file gives a shallow embedding of the
script's pure decision logic — date-filter parsing and evaluation, the
advanced keyword filter (including the exact `re.findall` behaviour of its
term regex), duration formatting, the per-candidate filter pipeline of
`process_new_videos`, the persist/publish loop of `process_videos`, the
pagination loops of the three fetch modes, the SQLite `INSERT OR REPLACE`
upsert of `save_video`, and the webhook-URL selection of `send_to_discord` —
and proves or refutes the specification's claims about them.

Modelling conventions: times are integers (seconds since the Unix epoch,
matching `datetime.timestamp()` for UTC datetimes); functions that can raise
a Python exception return `Option` (`none` = exception); module-level
configuration globals (`LANGUAGE_YOUTUBE`, `INITIALIZE_MODE_YOUTUBE`,
`ADVANCED_FILTER_YOUTUBE`, …) become explicit parameters.
-/

namespace YTD

/-! ## Calendar arithmetic

Python's `datetime.strptime(..., tzinfo=utc).timestamp()` for a proleptic
Gregorian date.  `toOrdinal` is `datetime.date.toordinal`; the epoch offset
719163 is `date(1970, 1, 1).toordinal()`. -/

/-- Gregorian leap-year test, as used by Python's `datetime`. -/
def isLeap (y : Nat) : Bool :=
  y % 4 == 0 && (y % 100 != 0 || y % 400 == 0)

/-- Number of days in month `m` of year `y` (for `m` between 1 and 12). -/
def daysInMonth (y m : Nat) : Nat :=
  if m = 2 then (if isLeap y then 29 else 28)
  else if m = 4 ∨ m = 6 ∨ m = 9 ∨ m = 11 then 30
  else 31

/-- Days in year `y` strictly before month `m`. -/
def daysBeforeMonth (y m : Nat) : Nat :=
  (List.range (m - 1)).foldl (fun acc i => acc + daysInMonth y (i + 1)) 0

/-- Proleptic-Gregorian ordinal of the date `y-m-d` (day 1 = 0001-01-01),
as computed by `datetime.date.toordinal`. -/
def toOrdinal (y m d : Nat) : Nat :=
  365 * (y - 1) + (y - 1) / 4 - (y - 1) / 100 + (y - 1) / 400 + daysBeforeMonth y m + d

/-- Unix timestamp (seconds) of midnight UTC on `y-m-d`. -/
def dateSeconds (y m d : Nat) : Int :=
  ((toOrdinal y m d : Int) - 719163) * 86400

/-- Unix timestamp (seconds) of `y-m-d h:mi:s` UTC. -/
def dateTimeSeconds (y m d h mi s : Nat) : Int :=
  dateSeconds y m d + h * 3600 + mi * 60 + s

/-- Validity check performed by `datetime.strptime`: datetime years start at
1, months run 1–12, days fit the month, and time-of-day fields are in range. -/
def validDate (y m d : Nat) : Prop :=
  1 ≤ y ∧ 1 ≤ m ∧ m ≤ 12 ∧ 1 ≤ d ∧ d ≤ daysInMonth y m

instance (y m d : Nat) : Decidable (validDate y m d) := by
  unfold validDate; infer_instance

/-! ## Character/string scanning helpers -/

/-- Digit test, Python `\d` restricted to ASCII input. -/
def isDig (c : Char) : Bool := '0' ≤ c && c ≤ '9'

/-- Numeric value of a digit string (Python `int` on a `\d+` match). -/
def natOfDigits (ds : List Char) : Nat :=
  ds.foldl (fun n c => n * 10 + (c.toNat - 48)) 0

/-- Longest run of ASCII digits at the front of the list, and the rest. -/
def takeDigits : List Char → List Char × List Char
  | [] => ([], [])
  | c :: rest =>
    if isDig c then
      let (t, r) := takeDigits rest
      (c :: t, r)
    else ([], c :: rest)

/-- Strips `key` from the front of `cs`, returning the rest on success. -/
def stripPre : List Char → List Char → Option (List Char)
  | [], cs => some cs
  | _ :: _, [] => none
  | k :: ks, c :: cs => if k = c then stripPre ks cs else none

/-- Matches the regex fragment `(\d{4}-\d{2}-\d{2})` at the head of the
list, returning the year/month/day digit groups. -/
def matchYMDAt : List Char → Option (Nat × Nat × Nat)
  | y1 :: y2 :: y3 :: y4 :: '-' :: m1 :: m2 :: '-' :: d1 :: d2 :: _ =>
    if isDig y1 && isDig y2 && isDig y3 && isDig y4 &&
       isDig m1 && isDig m2 && isDig d1 && isDig d2 then
      some (natOfDigits [y1, y2, y3, y4], natOfDigits [m1, m2], natOfDigits [d1, d2])
    else none
  | _ => none

/-- Embeds `re.search(key + r'(\d{4}-\d{2}-\d{2})', s)`: scan left to right
for the literal `key` followed by a date pattern, returning the first match's
digit groups. -/
def searchKeyDate (key : List Char) : List Char → Option (Nat × Nat × Nat)
  | [] => none
  | c :: rest =>
    match stripPre key (c :: rest) with
    | some after =>
      match matchYMDAt after with
      | some r => some r
      | none => searchKeyDate key rest
    | none => searchKeyDate key rest

/-- Embeds `re.search(r'past:(\d+)([hdmy])', s)`: the literal `past:`, then a
maximal digit run (a shorter run cannot succeed, since the character after it
is another digit), then a unit character. -/
def searchPast : List Char → Option (Nat × Char)
  | [] => none
  | c :: rest =>
    match stripPre ['p', 'a', 's', 't', ':'] (c :: rest) with
    | some after =>
      match takeDigits after with
      | (ds, u :: _) =>
        if ds ≠ [] ∧ (u = 'h' ∨ u = 'd' ∨ u = 'm' ∨ u = 'y') then some (natOfDigits ds, u)
        else searchPast rest
      | (_, []) => searchPast rest
    | none => searchPast rest

/-! ## Date filter (`parse_date_filter`, `is_within_date_range`) -/

/-- Result triple of `parse_date_filter`: `since_date`, `until_date`,
`past_date`, each `None` when the clause is absent. -/
structure DateFilter where
  since_date : Option Int
  until_date : Option Int
  past_date : Option Int
deriving DecidableEq, Repr

/-- Embeds `datetime.strptime(s, '%Y-%m-%d').replace(tzinfo=utc)` applied to
a `\d{4}-\d{2}-\d{2}` match, as a timestamp; `none` models the `ValueError`
raised on an out-of-range month or day. -/
def strptimeYMD (y m d : Nat) : Option Int :=
  if validDate y m d then some (dateSeconds y m d) else none

/-- Embeds `parse_date_filter(filter_string)` from the script.  `now` is
`datetime.now(timezone.utc)` as a timestamp (the script reads the clock when
a `past:` clause is present).  The outer `Option` is the exception channel:
`none` models a `ValueError` escaping from `strptime` on a matched but
invalid `since:`/`until:` date. -/
def parse_date_filter (filter_string : String) (now : Int) : Option DateFilter :=
  if filter_string = "" then some ⟨none, none, none⟩
  else
    let cs := filter_string.data
    let sinceRes : Option (Option Int) :=
      match searchKeyDate ['s', 'i', 'n', 'c', 'e', ':'] cs with
      | none => some none
      | some (y, m, d) => (strptimeYMD y m d).map some
    let untilRes : Option (Option Int) :=
      match searchKeyDate ['u', 'n', 't', 'i', 'l', ':'] cs with
      | none => some none
      | some (y, m, d) => (strptimeYMD y m d).map some
    let pastRes : Option Int :=
      (searchPast cs).map (fun vu =>
        if vu.2 = 'h' then now - vu.1 * 3600
        else if vu.2 = 'd' then now - vu.1 * 86400
        else if vu.2 = 'm' then now - vu.1 * 30 * 86400
        else now - vu.1 * 365 * 86400)
    match sinceRes, untilRes with
    | some sd, some ud => some ⟨sd, ud, pastRes⟩
    | _, _ => none

/-- Embeds `datetime.strptime(published_at, "%Y-%m-%dT%H:%M:%SZ")` with UTC
tzinfo, as a timestamp; `none` models the `ValueError` on malformed input. -/
def parsePublishedAt (s : String) : Option Int :=
  match s.data with
  | [y1, y2, y3, y4, '-', m1, m2, '-', d1, d2, 'T',
     h1, h2, ':', n1, n2, ':', s1, s2, 'Z'] =>
    if isDig y1 && isDig y2 && isDig y3 && isDig y4 && isDig m1 && isDig m2 &&
       isDig d1 && isDig d2 && isDig h1 && isDig h2 && isDig n1 && isDig n2 &&
       isDig s1 && isDig s2 then
      let y := natOfDigits [y1, y2, y3, y4]
      let m := natOfDigits [m1, m2]
      let d := natOfDigits [d1, d2]
      let h := natOfDigits [h1, h2]
      let mi := natOfDigits [n1, n2]
      let se := natOfDigits [s1, s2]
      if validDate y m d ∧ h ≤ 23 ∧ mi ≤ 59 ∧ se ≤ 59 then
        some (dateTimeSeconds y m d h mi se)
      else none
    else none
  | _ => none

/-- Embeds `is_within_date_range(published_at, since_date, until_date,
past_date)`.  A present (`some`) clause is truthy in Python; the three
clauses are checked in the script's order and OR'd.  `none` models the
`ValueError` raised by `strptime` on a malformed `published_at`. -/
def is_within_date_range (published_at : String)
    (since_date until_date past_date : Option Int) : Option Bool :=
  (parsePublishedAt published_at).map (fun pub =>
    (match past_date with
     | some p => decide (p ≤ pub)
     | none => false) ||
    (match since_date with
     | some s => decide (s ≤ pub)
     | none => false) ||
    (match until_date with
     | some u => decide (pub ≤ u)
     | none => false))

/-- A video (timestamp `pub`) satisfies at least one present clause of the
parsed date filter `f`. -/
def clauseSatisfied (pub : Int) (f : DateFilter) : Prop :=
  (∃ p, f.past_date = some p ∧ p ≤ pub) ∨
  (∃ s, f.since_date = some s ∧ s ≤ pub) ∨
  (∃ u, f.until_date = some u ∧ pub ≤ u)

/-! ## Advanced keyword filter (`apply_advanced_filter`)

The script tokenizes the filter expression with
`re.findall(r'([+-]?)(?:"([^"]*)"|\S+)', advanced_filter)`.  With two groups,
`re.findall` returns `(group1, group2)` tuples, and a group that did not
participate in the match is returned as `''` — so for an *unquoted* term the
second component is always the empty string.  The embedding below reproduces
that tokenization exactly, including the backtracking case where `[+-]?`
gives its character back to `\S+`. -/

/-- Python whitespace for `\S` / `str.split()` (ASCII range). -/
def pyIsSpace (c : Char) : Bool :=
  c = ' ' || c = '\t' || c = '\n' || c = '\r' || c = '\x0b' || c = '\x0c'

/-- Longest run of non-whitespace characters at the front (`\S+` greedy). -/
def takeNonSpace : List Char → List Char × List Char
  | [] => ([], [])
  | c :: rest =>
    if pyIsSpace c then ([], c :: rest)
    else (c :: (takeNonSpace rest).1, (takeNonSpace rest).2)

/-- After an opening `"`: the content up to the next `"` and the rest after
it, or `none` when no closing quote exists (the `"([^"]*)"` alternative then
fails). -/
def scanQuoted : List Char → Option (List Char × List Char)
  | [] => none
  | c :: rest =>
    if c = '"' then some ([], rest)
    else
      match scanQuoted rest with
      | some (content, r) => some (c :: content, r)
      | none => none

/-- The `\S+` alternative of the term regex: group 2 does not participate in
the match, so `re.findall` reports it as the empty string. -/
def matchTermFallback (pre : List Char) (cs : List Char) :
    Option ((List Char × List Char) × List Char) :=
  match takeNonSpace cs with
  | ([], _) => none
  | (_ :: _, r) => some ((pre, []), r)

/-- Matches `(?:"([^"]*)"|\S+)` at the head of `cs` with the already-matched
sign `pre`; returns the `(group1, group2)` pair and the rest of the input. -/
def matchTerm (pre : List Char) (cs : List Char) :
    Option ((List Char × List Char) × List Char) :=
  match cs with
  | [] => none
  | c :: rest =>
    if c = '"' then
      match scanQuoted rest with
      | some (content, r) => some ((pre, content), r)
      | none => matchTermFallback pre (c :: rest)
    else matchTermFallback pre (c :: rest)

/-- Matches the full pattern `([+-]?)(?:"([^"]*)"|\S+)` at the head of `cs`.
When a leading `+`/`-` is taken but no term follows, the regex engine
backtracks and lets `\S+` consume the sign itself. -/
def matchTermAt (cs : List Char) : Option ((List Char × List Char) × List Char) :=
  match cs with
  | [] => none
  | c :: rest =>
    if c = '+' ∨ c = '-' then
      match matchTerm [c] rest with
      | some r => some r
      | none => matchTerm [] (c :: rest)
    else matchTerm [] (c :: rest)

theorem scanQuoted_length {cs content r : List Char}
    (h : scanQuoted cs = some (content, r)) : r.length < cs.length := by
  induction cs generalizing content r with
  | nil => simp [scanQuoted] at h
  | cons c rest ih =>
    rw [scanQuoted] at h
    split at h
    · obtain ⟨h1, h2⟩ := Prod.mk.injEq .. ▸ Option.some.injEq .. ▸ h
      subst h2; simp
    · split at h
      · rename_i content' r' heq
        obtain ⟨h1, h2⟩ := Prod.mk.injEq .. ▸ Option.some.injEq .. ▸ h
        subst h2
        exact Nat.lt_trans (ih heq) (by simp)
      · exact absurd h (by simp)

theorem takeNonSpace_length (cs : List Char) :
    (takeNonSpace cs).1.length + (takeNonSpace cs).2.length = cs.length := by
  induction cs with
  | nil => simp [takeNonSpace]
  | cons c rest ih =>
    rw [takeNonSpace]
    split
    · simp
    · simpa using by omega

theorem matchTermFallback_length {pre cs g r}
    (h : matchTermFallback pre cs = some (g, r)) : r.length < cs.length := by
  unfold matchTermFallback at h
  split at h
  · exact absurd h (by simp)
  · rename_i a t r' heq
    obtain ⟨h1, h2⟩ := Prod.mk.injEq .. ▸ Option.some.injEq .. ▸ h
    subst h2
    have hlen := takeNonSpace_length cs
    rw [heq] at hlen
    simp at hlen
    omega

theorem matchTerm_length {pre cs g r} (h : matchTerm pre cs = some (g, r)) :
    r.length < cs.length := by
  unfold matchTerm at h
  split at h
  · exact absurd h (by simp)
  · rename_i c rest heq
    split at h
    · split at h
      · rename_i content r' hq
        obtain ⟨h1, h2⟩ := Prod.mk.injEq .. ▸ Option.some.injEq .. ▸ h
        subst h2
        exact Nat.lt_trans (scanQuoted_length hq) (by simp)
      · exact matchTermFallback_length h
    · exact matchTermFallback_length h

theorem matchTermAt_length {cs g r} (h : matchTermAt cs = some (g, r)) :
    r.length < cs.length := by
  unfold matchTermAt at h
  split at h
  · exact absurd h (by simp)
  · rename_i c rest heq
    split at h
    · split at h
      · rename_i res hm
        cases res with
        | mk g' r' =>
          obtain ⟨h1, h2⟩ := Prod.mk.injEq .. ▸ Option.some.injEq .. ▸ h
          subst h2
          exact Nat.lt_trans (matchTerm_length hm) (by simp)
      · exact matchTerm_length h
    · exact matchTerm_length h

/-- Scanner worker for `findAll`, structurally recursive on a fuel counter
so that it evaluates by kernel reduction.  Each step either consumes at
least one character of the input (`matchTermAt_length`) or drops exactly
one, so fuel equal to the input length never runs out early. -/
def findAllAux : Nat → List Char → List (List Char × List Char)
  | 0, _ => []
  | _ + 1, [] => []
  | fuel + 1, c :: rest =>
    match matchTermAt (c :: rest) with
    | some (g, r) => g :: findAllAux fuel r
    | none => findAllAux fuel rest

/-- Embeds `re.findall(r'([+-]?)(?:"([^"]*)"|\S+)', s)`: non-overlapping
leftmost matches; a position with no match is skipped one character at a
time. -/
def findAll (cs : List Char) : List (List Char × List Char) :=
  findAllAux cs.length cs

/-- Adequacy of the fuel: any fuel at least the input length gives the same
scan, so `findAll`'s choice of `cs.length` loses nothing. -/
theorem findAllAux_fuel {fuel : Nat} {cs : List Char} (h : cs.length ≤ fuel) :
    findAllAux fuel cs = findAll cs := by
  induction fuel using Nat.strong_induction_on generalizing cs with
  | _ fuel ih =>
    cases fuel with
    | zero =>
      cases cs with
      | nil => rfl
      | cons c rest => simp at h
    | succ n =>
      cases cs with
      | nil => rfl
      | cons c rest =>
        rw [findAll]
        simp only [List.length_cons]
        rw [findAllAux, findAllAux]
        cases hm : matchTermAt (c :: rest) with
        | some gr =>
          cases gr with
          | mk g r =>
            dsimp only
            have hlen := matchTermAt_length hm
            simp only [List.length_cons] at hlen h
            rw [ih n (by omega) (by omega : r.length ≤ n),
                ih rest.length (by omega) (by omega : r.length ≤ rest.length)]
        | none =>
          dsimp only
          simp only [List.length_cons] at h
          rw [ih n (by omega) (by omega : rest.length ≤ n),
              ih rest.length (by omega) (le_refl _)]

/-- Boolean list analogue of `List.isPrefixOf` over characters. -/
def isPreOf : List Char → List Char → Bool
  | [], _ => true
  | _ :: _, [] => false
  | a :: as, b :: bs => a = b && isPreOf as bs

/-- Python's substring test `needle in hay`. -/
def hasSub (hay needle : List Char) : Bool :=
  if isPreOf needle hay then true
  else
    match hay with
    | [] => false
    | _ :: t => hasSub t needle

/-- Python `str.split()` with no arguments: split on whitespace runs,
discarding empty pieces.  `cur` is the current word, reversed. -/
def pySplitAux : List Char → List Char → List (List Char)
  | [], cur => if cur = [] then [] else [cur.reverse]
  | c :: rest, cur =>
    if pyIsSpace c then
      if cur = [] then pySplitAux rest []
      else cur.reverse :: pySplitAux rest []
    else pySplitAux rest (c :: cur)

/-- Python `str.split()` with no arguments. -/
def pySplit (cs : List Char) : List (List Char) := pySplitAux cs []

/-- Python `' '.join(ws)`. -/
def joinSp : List (List Char) → List Char
  | [] => []
  | [w] => w
  | w :: ws => w ++ ' ' :: joinSp ws

/-- The `for prefix, term in terms:` loop body of `apply_advanced_filter`.
`term = term.lower() if term else prefix.lower()` substitutes the *sign* for
the term whenever group 2 is empty — which is every unquoted term. -/
def checkTerms (text : List Char) : List (List Char × List Char) → Bool
  | [] => true
  | (pre, tg) :: rest =>
    let t := if tg ≠ [] then tg.map Char.toLower else pre.map Char.toLower
    if pre = ['+'] ∨ pre = [] then
      if hasSub text t then checkTerms text rest else false
    else if pre = ['-'] then
      match pySplit t with
      | w1 :: w2 :: ws =>
        if hasSub text (joinSp (w1 :: w2 :: ws)) then false else checkTerms text rest
      | _ => if hasSub text t then false else checkTerms text rest
    else checkTerms text rest

/-- Embeds `apply_advanced_filter(title, advanced_filter)`; ASCII-only
lowercasing (all inputs of interest are ASCII). -/
def apply_advanced_filter (title advanced_filter : String) : Bool :=
  if advanced_filter = "" then true
  else checkTerms (title.data.map Char.toLower) (findAll advanced_filter.data)

/-! ## Duration formatting (`parse_duration`) -/

/-- The two values `LANGUAGE_YOUTUBE` may take. -/
inductive Lang
  | english
  | korean
deriving DecidableEq, Repr

/-- Optionally consumes a `<digits><u>` component at the front; on failure
the input is returned untouched (the next component is then tried there). -/
def tryComp (cs : List Char) (u : Char) : Option Nat × List Char :=
  match takeDigits cs with
  | ([], _) => (none, cs)
  | (ds, c :: rest) => if c = u then (some (natOfDigits ds), rest) else (none, cs)
  | (_, []) => (none, cs)

/-- Embeds `isodate.parse_duration(s).total_seconds()` for the subset the
script feeds it: nonnegative integer day and time components (`PnD`,
`PnDTnHnMnS`, `PTnHnMnS`, … — at least one component present).  Year, month,
week and fractional components are not modelled; `none` models the parse
error raised on anything else. -/
def parseISODuration (s : String) : Option Nat :=
  match s.data with
  | 'P' :: rest =>
    let dRes := tryComp rest 'D'
    match dRes.2 with
    | [] =>
      match dRes.1 with
      | some d => some (d * 86400)
      | none => none
    | 'T' :: rest2 =>
      let hRes := tryComp rest2 'H'
      let mRes := tryComp hRes.2 'M'
      let sRes := tryComp mRes.2 'S'
      if sRes.2 = [] ∧ (hRes.1.isSome ∨ mRes.1.isSome ∨ sRes.1.isSome) then
        some ((dRes.1.getD 0) * 86400 + (hRes.1.getD 0) * 3600 +
              (mRes.1.getD 0) * 60 + sRes.1.getD 0)
      else none
    | _ => none
  | _ => none

/-- Embeds `parse_duration(duration)` from the script, with the module-level
`LANGUAGE_YOUTUBE` as an explicit parameter.  `divmod(total, 3600)` then
`divmod(remainder, 60)`; when hours are positive all three groups are
rendered (zero minutes/seconds included), otherwise hours are dropped, and
likewise for minutes.  `none` models the isodate parse error propagating. -/
def parse_duration (duration : String) (lang : Lang) : Option String :=
  (parseISODuration duration).map (fun total_seconds =>
    let hours := total_seconds / 3600
    let remainder := total_seconds % 3600
    let minutes := remainder / 60
    let seconds := remainder % 60
    match lang with
    | Lang.korean =>
      if hours > 0 then
        toString hours ++ "시간 " ++ toString minutes ++ "분 " ++ toString seconds ++ "초"
      else if minutes > 0 then
        toString minutes ++ "분 " ++ toString seconds ++ "초"
      else toString seconds ++ "초"
    | Lang.english =>
      if hours > 0 then
        toString hours ++ "h " ++ toString minutes ++ "m " ++ toString seconds ++ "s"
      else if minutes > 0 then
        toString minutes ++ "m " ++ toString seconds ++ "s"
      else toString seconds ++ "s")

/-! ## Filter pipeline (`process_new_videos`)

Only the fields that the pipeline's control flow reads are carried: the
candidate's video id, and from the enrichment response the snippet title and
`publishedAt`.  The enrichment-only payload fields (category, duration,
statistics, …) are copied into the produced record by the script but decide
nothing, so they are omitted here.  The upstream pair's own snippet is
shadowed by the detail snippet on the first line of the loop body, so a
candidate is just its id. -/

/-- The slice of one `video_details_dict` entry that the pipeline reads. -/
structure Detail where
  title : String
  publishedAt : String
deriving DecidableEq, Repr

/-- The slice of a produced `new_video` record that the claims mention. -/
structure NewVideo where
  video_id : String
  title : String
  published_at : String
deriving DecidableEq, Repr

/-- The module-level configuration and per-run data `process_new_videos`
reads: `INITIALIZE_MODE_YOUTUBE`, `ADVANCED_FILTER_YOUTUBE`, the enrichment
dictionary, the store's existing ids, and the parsed date filter. -/
structure PipeEnv where
  initMode : Bool
  advFilter : String
  details : String → Option Detail
  existing : List String
  since_date : Option Int
  until_date : Option Int
  past_date : Option Int

/-- Embeds the `for video_id, snippet in videos:` loop of
`process_new_videos`: skip candidates without details, then skip ids already
in the store, then (outside initialize mode) skip videos outside the date
range, then skip titles failing the advanced filter; survivors are appended
in iteration order.  The outer `Option` is the exception channel (`strptime`
failing on a malformed `publishedAt` aborts the run). -/
def process_new_videos (env : PipeEnv) : List String → Option (List NewVideo)
  | [] => some []
  | vid :: rest =>
    match env.details vid with
    | none => process_new_videos env rest
    | some d =>
      if vid ∈ env.existing then process_new_videos env rest
      else
        match (if env.initMode then some true
               else is_within_date_range d.publishedAt
                      env.since_date env.until_date env.past_date) with
        | none => none
        | some ok =>
          if ¬ ok then process_new_videos env rest
          else if ¬ apply_advanced_filter d.title env.advFilter then
            process_new_videos env rest
          else
            (process_new_videos env rest).map
              (fun tail => ⟨vid, d.title, d.publishedAt⟩ :: tail)

/-- The acceptance predicate implicit in `process_new_videos` (used to state
that the loop is an order-preserving filter). -/
def acceptsB (env : PipeEnv) (vid : String) : Bool :=
  match env.details vid with
  | none => false
  | some d =>
    if vid ∈ env.existing then false
    else
      match (if env.initMode then some true
             else is_within_date_range d.publishedAt
                    env.since_date env.until_date env.past_date) with
      | none => false
      | some ok => ok && apply_advanced_filter d.title env.advFilter

/-! ## Persist/publish loop (`process_videos` / `main`)

`process_videos` runs `for video in new_videos: save_video(video);
send_discord_messages(video, …)` with no `try` around either call:
`save_video` raises `DatabaseError` on an SQLite failure and
`send_to_discord` raises `DiscordWebhookError` after its retries are
exhausted, so the first per-video failure propagates out of the loop to
`main`, which catches the three script-defined exception classes, logs them
and ends the run (only unrecognized exceptions call `sys.exit(1)`).
`saveOk`/`sendOk` are oracles saying whether the store write / webhook
delivery for a given video succeeds. -/

/-- The script-defined exception classes that `main` catches. -/
inductive RunError
  | databaseError
  | webhookError
deriving DecidableEq, Repr

/-- Embeds the `for video in new_videos:` loop of `process_videos`: the ids
saved, the ids fully delivered, and the exception (if any) that ended the
loop early. -/
def publish_loop (saveOk sendOk : NewVideo → Bool) :
    List NewVideo → List String × List String × Option RunError
  | [] => ([], [], none)
  | v :: rest =>
    if ¬ saveOk v then ([], [], some RunError.databaseError)
    else if ¬ sendOk v then ([v.video_id], [], some RunError.webhookError)
    else
      (v.video_id :: (publish_loop saveOk sendOk rest).1,
       v.video_id :: (publish_loop saveOk sendOk rest).2.1,
       (publish_loop saveOk sendOk rest).2.2)

/-- How one run ends, as seen from `main`'s exception handlers. -/
inductive Outcome
  | completed
  | loggedError (e : RunError)
deriving DecidableEq, Repr

/-- Embeds `main`'s `except YouTubeAPIError / DatabaseError /
DiscordWebhookError` arms: a script-defined error is logged and the run ends
normally (no re-raise, no nonzero exit). -/
def main_outcome : Option RunError → Outcome
  | none => Outcome.completed
  | some e => Outcome.loggedError e

/-! ## Store upsert (`save_video` / `init_db`)

The table is `videos` with `video_id TEXT PRIMARY KEY`; `save_video` runs a
single `INSERT OR REPLACE`, which deletes any conflicting row and inserts the
new one.  The table is modelled as the list of rows in rowid order (a
replacement appends at the end).  Rows carry the `NewVideo` slice; the other
columns ride along with the row and change nothing about keying. -/

/-- Embeds `save_video(video)` acting on the `videos` table. -/
def save_video (v : NewVideo) (table : List NewVideo) : List NewVideo :=
  table.filter (fun r => r.video_id ≠ v.video_id) ++ [v]

/-! ## Webhook-URL selection (`send_to_discord`) -/

/-- Embeds the target-selection line of `send_to_discord`:
`DISCORD_WEBHOOK_YOUTUBE_DETAILVIEW if is_detail and
DISCORD_WEBHOOK_YOUTUBE_DETAILVIEW else DISCORD_WEBHOOK_YOUTUBE`.
An unset variable is `None` and an empty string is falsy, so both fall back
to the main webhook. -/
def send_to_discord_url (is_detail : Bool) (detailUrl : Option String)
    (mainUrl : String) : String :=
  match detailUrl with
  | some u => if is_detail ∧ u ≠ "" then u else mainUrl
  | none => mainUrl

/-! ## Source-adapter pagination (`fetch_channel_videos`,
`fetch_playlist_videos`, `fetch_search_videos`)

The upstream is modelled as the finite list of pages it would serve in
order; a request past the end is answered by an empty page with no
continuation token.  The requested per-page size (`maxResults=min(50, …)`)
only shrinks responses, which the loops already defend against with their
own length checks, so the model lets each page carry whatever items the
upstream chose.  Each loop returns the collected items and the number of
page requests (`.execute()` calls) it made. -/

/-- One playlist/search item as the pagination loops see it: the video id
and the `privacyStatus` string (search items carry no status; it is ignored
there). -/
structure PageItem where
  videoId : String
  status : String
deriving DecidableEq, Repr

/-- One upstream response page. -/
structure Page where
  items : List PageItem
  hasNext : Bool
deriving DecidableEq, Repr

/-- The inner `for item in response['items']:` of `fetch_channel_videos`:
private items are skipped, others appended, and the loop breaks as soon as
the cap is reached. -/
def addChannelItems (maxRes : Nat) (acc : List PageItem) :
    List PageItem → List PageItem
  | [] => acc
  | it :: rest =>
    if it.status = "private" then addChannelItems maxRes acc rest
    else
      if maxRes ≤ (acc ++ [it]).length then acc ++ [it]
      else addChannelItems maxRes (acc ++ [it]) rest

/-- The inner item loop of `fetch_search_videos`: every item is appended
(no privacy check), breaking at the cap. -/
def addSearchItems (maxRes : Nat) (acc : List PageItem) :
    List PageItem → List PageItem
  | [] => acc
  | it :: rest =>
    if maxRes ≤ (acc ++ [it]).length then acc ++ [it]
    else addSearchItems maxRes (acc ++ [it]) rest

/-- The `while len(video_items) < max_results and api_calls < 3:` loop of
`fetch_channel_videos`.  `api_calls` is incremented only when a next-page
token exists; without one the loop breaks after the call. -/
def channelLoop (maxRes : Nat) : List Page → List PageItem → Nat → Nat →
    List PageItem × Nat
  | pages, acc, api_calls, calls =>
    if acc.length < maxRes ∧ api_calls < 3 then
      match pages with
      | [] => (acc, calls + 1)
      | p :: rest =>
        let acc' := addChannelItems maxRes acc p.items
        if p.hasNext then channelLoop maxRes rest acc' (api_calls + 1) (calls + 1)
        else (acc', calls + 1)
    else (acc, calls)

/-- Embeds `fetch_channel_videos` (pagination part): starts with an empty
item list and zero call counters. -/
def fetch_channel_videos (maxRes : Nat) (pages : List Page) :
    List PageItem × Nat :=
  channelLoop maxRes pages [] 0 0

/-- Same loop shape for `fetch_search_videos`, whose ceiling is
`max_api_calls = 5`. -/
def searchLoop (maxRes : Nat) : List Page → List PageItem → Nat → Nat →
    List PageItem × Nat
  | pages, acc, api_calls, calls =>
    if acc.length < maxRes ∧ api_calls < 5 then
      match pages with
      | [] => (acc, calls + 1)
      | p :: rest =>
        let acc' := addSearchItems maxRes acc p.items
        if p.hasNext then searchLoop maxRes rest acc' (api_calls + 1) (calls + 1)
        else (acc', calls + 1)
    else (acc, calls)

/-- Embeds `fetch_search_videos` (pagination part). -/
def fetch_search_videos (maxRes : Nat) (pages : List Page) :
    List PageItem × Nat :=
  searchLoop maxRes pages [] 0 0

/-- The `while len(playlist_items) < max_results:` loop of
`fetch_playlist_videos`: no call ceiling at all; each page's non-private
items are appended wholesale, and the loop breaks when there is no next
token or the cap is reached. -/
def playlistLoop (maxRes : Nat) : List Page → List PageItem → Nat →
    List PageItem × Nat
  | pages, acc, calls =>
    if acc.length < maxRes then
      match pages with
      | [] => (acc, calls + 1)
      | p :: rest =>
        let acc' := acc ++ p.items.filter (fun it => it.status ≠ "private")
        if p.hasNext = false ∨ maxRes ≤ acc'.length then (acc', calls + 1)
        else playlistLoop maxRes rest acc' (calls + 1)
    else (acc, calls)

/-- Embeds `fetch_playlist_videos` (pagination part): the collected list is
truncated to the cap at the end (`playlist_items[:max_results]`); the
playlist-metadata call and the configured sort policy do not touch the page
loop and are omitted. -/
def fetch_playlist_videos (maxRes : Nat) (pages : List Page) :
    List PageItem × Nat :=
  match playlistLoop maxRes pages [] 0 with
  | (items, calls) => (items.take maxRes, calls)

/-! ## Helper lemmas -/

theorem acceptsB_of_mem_existing (env : PipeEnv) (vid : String)
    (h : vid ∈ env.existing) : acceptsB env vid = false := by
  unfold acceptsB
  cases env.details vid with
  | none => rfl
  | some d => simp [h]

/-- The filter pipeline is an order-preserving filter: when no exception is
raised, the produced ids are exactly the input ids passing `acceptsB`, in the
input order. -/
theorem pnv_map_eq_filter (env : PipeEnv) :
    ∀ (vids : List String) (l : List NewVideo),
      process_new_videos env vids = some l →
      l.map (fun v => v.video_id) = vids.filter (acceptsB env) := by
  intro vids
  induction vids with
  | nil =>
    intro l h
    simp only [process_new_videos, Option.some.injEq] at h
    subst h
    simp
  | cons vid rest ih =>
    intro l h
    rw [process_new_videos] at h
    rw [List.filter_cons]
    cases hd : env.details vid with
    | none =>
      simp only [hd] at h
      have ha : acceptsB env vid = false := by unfold acceptsB; simp only [hd]
      rw [ih l h, ha]
      simp
    | some d =>
      simp only [hd] at h
      by_cases hex : vid ∈ env.existing
      · rw [if_pos hex] at h
        have ha := acceptsB_of_mem_existing env vid hex
        rw [ih l h, ha]
        simp
      · rw [if_neg hex] at h
        cases hdate : (if env.initMode then some true
            else is_within_date_range d.publishedAt
                   env.since_date env.until_date env.past_date) with
        | none =>
          simp only [hdate] at h
          exact absurd h (by simp)
        | some ok =>
          simp only [hdate] at h
          have ha : acceptsB env vid =
              (ok && apply_advanced_filter d.title env.advFilter) := by
            unfold acceptsB
            simp only [hd, if_neg hex, hdate]
          by_cases hok : ok = true
          · rw [if_neg (by simp [hok])] at h
            by_cases hadv : apply_advanced_filter d.title env.advFilter = true
            · rw [if_neg (by simp [hadv])] at h
              cases hrec : process_new_videos env rest with
              | none => rw [hrec] at h; exact absurd h (by simp)
              | some tail =>
                rw [hrec] at h
                simp only [Option.map_some', Option.some.injEq] at h
                subst h
                rw [List.map_cons, ih tail hrec, ha, hok, hadv]
                simp
            · rw [if_pos (by simp [hadv])] at h
              rw [ih l h, ha, hok]
              simp [hadv]
          · rw [if_pos (by simp [hok])] at h
            rw [ih l h, ha]
            simp [hok]

theorem publish_loop_saved_mem (saveOk sendOk : NewVideo → Bool) :
    ∀ (l : List NewVideo) (x : String),
      (x ∈ (publish_loop saveOk sendOk l).1 →
        x ∈ l.map (fun v => v.video_id)) ∧
      (x ∈ (publish_loop saveOk sendOk l).2.1 →
        x ∈ l.map (fun v => v.video_id)) := by
  intro l
  induction l with
  | nil => intro x; simp [publish_loop]
  | cons v rest ih =>
    intro x
    rw [publish_loop]
    by_cases hs : saveOk v
    · by_cases hn : sendOk v
      · simp only [hs, hn, not_true, if_neg, List.map_cons, List.mem_cons,
          not_false_eq_true]
        constructor
        · intro hx
          rcases hx with hx | hx
          · exact Or.inl hx
          · exact Or.inr ((ih x).1 hx)
        · intro hx
          rcases hx with hx | hx
          · exact Or.inl hx
          · exact Or.inr ((ih x).2 hx)
      · simp [hs, hn]
        exact fun hx => Or.inl hx
    · simp [hs]

theorem publish_loop_all_ok (saveOk sendOk : NewVideo → Bool) :
    ∀ l : List NewVideo, (∀ v ∈ l, saveOk v = true ∧ sendOk v = true) →
      publish_loop saveOk sendOk l =
        (l.map (fun v => v.video_id), l.map (fun v => v.video_id), none) := by
  intro l
  induction l with
  | nil => intro _; rfl
  | cons v rest ih =>
    intro hall
    have hv := hall v (by simp)
    rw [publish_loop, ih (fun w hw => hall w (by simp [hw]))]
    simp [hv.1, hv.2]

theorem channelLoop_calls (maxRes : Nat) :
    ∀ (pages : List Page) (acc : List PageItem) (a c : Nat),
      (channelLoop maxRes pages acc a c).2 ≤ c + (3 - a) := by
  intro pages
  induction pages with
  | nil =>
    intro acc a c
    rw [channelLoop]
    split
    · rename_i hg
      show (acc, c + 1).2 ≤ c + (3 - a)
      have := hg.2
      simp
      omega
    · show (acc, c).2 ≤ c + (3 - a)
      simp
  | cons p rest ih =>
    intro acc a c
    rw [channelLoop]
    split
    · rename_i hg
      show (if p.hasNext then
              channelLoop maxRes rest (addChannelItems maxRes acc p.items) (a + 1) (c + 1)
            else (addChannelItems maxRes acc p.items, c + 1)).2 ≤ c + (3 - a)
      by_cases hn : p.hasNext
      · rw [if_pos hn]
        have := ih (addChannelItems maxRes acc p.items) (a + 1) (c + 1)
        have := hg.2
        omega
      · rw [if_neg hn]
        have := hg.2
        simp
        omega
    · show (acc, c).2 ≤ c + (3 - a)
      simp

theorem searchLoop_calls (maxRes : Nat) :
    ∀ (pages : List Page) (acc : List PageItem) (a c : Nat),
      (searchLoop maxRes pages acc a c).2 ≤ c + (5 - a) := by
  intro pages
  induction pages with
  | nil =>
    intro acc a c
    rw [searchLoop]
    split
    · rename_i hg
      show (acc, c + 1).2 ≤ c + (5 - a)
      have := hg.2
      simp
      omega
    · show (acc, c).2 ≤ c + (5 - a)
      simp
  | cons p rest ih =>
    intro acc a c
    rw [searchLoop]
    split
    · rename_i hg
      show (if p.hasNext then
              searchLoop maxRes rest (addSearchItems maxRes acc p.items) (a + 1) (c + 1)
            else (addSearchItems maxRes acc p.items, c + 1)).2 ≤ c + (5 - a)
      by_cases hn : p.hasNext
      · rw [if_pos hn]
        have := ih (addSearchItems maxRes acc p.items) (a + 1) (c + 1)
        have := hg.2
        omega
      · rw [if_neg hn]
        have := hg.2
        simp
        omega
    · show (acc, c).2 ≤ c + (5 - a)
      simp

theorem playlistLoop_calls (maxRes : Nat) :
    ∀ (pages : List Page) (acc : List PageItem) (c : Nat),
      (playlistLoop maxRes pages acc c).2 ≤ c + pages.length + 1 := by
  intro pages
  induction pages with
  | nil =>
    intro acc c
    rw [playlistLoop]
    split
    · show (acc, c + 1).2 ≤ c + 0 + 1
      simp
    · show (acc, c).2 ≤ c + 0 + 1
      simp
  | cons p rest ih =>
    intro acc c
    rw [playlistLoop]
    split
    · show (if p.hasNext = false ∨
              maxRes ≤ (acc ++ p.items.filter (fun it => it.status ≠ "private")).length
            then (acc ++ p.items.filter (fun it => it.status ≠ "private"), c + 1)
            else playlistLoop maxRes rest
                   (acc ++ p.items.filter (fun it => it.status ≠ "private")) (c + 1)).2
          ≤ c + (p :: rest).length + 1
      split
      · simp
      · have := ih (acc ++ p.items.filter (fun it => it.status ≠ "private")) (c + 1)
        simp only [List.length_cons]
        omega
    · show (acc, c).2 ≤ c + (p :: rest).length + 1
      simp
      omega

/-! ## Claims -/

/-- C1: The claim says an empty date-filter expression (no `since:`,
`until:` or `past:` clause) passes every video.  The code does the opposite:
`parse_date_filter("")` yields three `None`s, and `is_within_date_range`
falls through all three truthiness guards and returns `False`, so outside
initialize mode every video is rejected on date grounds — here evaluated on
a video published 2024-06-01, which the pipeline drops. -/
theorem empty_date_filter_rejects :
    parse_date_filter "" 0 = some ⟨none, none, none⟩ ∧
    is_within_date_range "2024-06-01T00:00:00Z" none none none = some false ∧
    process_new_videos
      ⟨false, "", fun _ => some ⟨"Any Title", "2024-06-01T00:00:00Z"⟩,
       [], none, none, none⟩ ["vidA"] = some [] := by
  refine ⟨rfl, rfl, rfl⟩

/-- C2 counterexample: the pipeline never sorts by `published_at`.  With the
upstream returning the newer video first, both the filter stage and the
persist/publish loop keep that order, so the two accepted videos are
persisted and published newest-first — not in ascending published order. -/
theorem accepted_not_sorted_counterexample :
    process_new_videos
      ⟨false, "",
       (fun vid => if vid = "vidB" then some ⟨"b", "2024-06-02T00:00:00Z"⟩
                   else if vid = "vidA" then some ⟨"a", "2024-06-01T00:00:00Z"⟩
                   else none),
       [], some 0, none, none⟩ ["vidB", "vidA"] =
      some [⟨"vidB", "b", "2024-06-02T00:00:00Z"⟩,
            ⟨"vidA", "a", "2024-06-01T00:00:00Z"⟩] ∧
    publish_loop (fun _ => true) (fun _ => true)
        [⟨"vidB", "b", "2024-06-02T00:00:00Z"⟩,
         ⟨"vidA", "a", "2024-06-01T00:00:00Z"⟩] =
      (["vidB", "vidA"], ["vidB", "vidA"], none) ∧
    parsePublishedAt "2024-06-02T00:00:00Z" = some 1717286400 ∧
    parsePublishedAt "2024-06-01T00:00:00Z" = some 1717200000 ∧
    (1717200000 : Int) < 1717286400 := by
  refine ⟨rfl, rfl, rfl, rfl, by decide⟩

/-- C2 amended: accepted videos are persisted and published in the order
the upstream returned them — the filter stage is an order-preserving filter
of the input sequence and the persist/publish loop walks it front to back;
no re-sort by `published_at` happens anywhere. -/
theorem pipeline_preserves_upstream_order (env : PipeEnv) (vids : List String)
    (l : List NewVideo) (saveOk sendOk : NewVideo → Bool)
    (hrun : process_new_videos env vids = some l)
    (hok : ∀ v ∈ l, saveOk v = true ∧ sendOk v = true) :
    l.map (fun v => v.video_id) = vids.filter (acceptsB env) ∧
    publish_loop saveOk sendOk l =
      (l.map (fun v => v.video_id), l.map (fun v => v.video_id), none) :=
  ⟨pnv_map_eq_filter env vids l hrun, publish_loop_all_ok saveOk sendOk l hok⟩

/-- C2 amended, witness at a concrete run. -/
theorem pipeline_preserves_upstream_order_witness :
    ([⟨"x", "t", "p"⟩] : List NewVideo).map (fun v => v.video_id) =
      ["x"].filter (acceptsB ⟨true, "", fun _ => some ⟨"t", "p"⟩, [], none, none, none⟩) ∧
    publish_loop (fun _ => true) (fun _ => true) [⟨"x", "t", "p"⟩] =
      (["x"], ["x"], none) :=
  pipeline_preserves_upstream_order
    ⟨true, "", fun _ => some ⟨"t", "p"⟩, [], none, none, none⟩
    ["x"] [⟨"x", "t", "p"⟩] (fun _ => true) (fun _ => true) rfl (by decide)

/-- C3: The claim says `+launch -beta` accepts "Product Launch Event" and
that an unprefixed/`+` term must appear in the title.  In the code,
`re.findall(r'([+-]?)(?:"([^"]*)"|\S+)', …)` leaves group 2 empty for every
unquoted term, and the loop then substitutes the sign for the term — so
`+launch` demands a literal `+` in the title and "Product Launch Event" is
rejected, while a title containing `+` passes. -/
theorem advanced_filter_plus_literal :
    apply_advanced_filter "Product Launch Event" "+launch -beta" = false ∧
    apply_advanced_filter "Beta Launch Notes" "+launch -beta" = false ∧
    apply_advanced_filter "Product+ Launch Event" "+launch -beta" = true ∧
    findAll "+launch -beta".data = [(['+'], []), (['-'], [])] := by
  refine ⟨rfl, rfl, rfl, rfl⟩

/-- C4 counterexample: with two accepted videos where only the first one's
store write fails, the loop ends at the first video — the second video,
whose own save would have succeeded, is neither saved nor delivered, so the
run does not continue to subsequent videos. -/
theorem save_failure_stops_batch_counterexample :
    (fun v : NewVideo => v.video_id ≠ "a") ⟨"b", "t2", "p2"⟩ = true ∧
    publish_loop (fun v => v.video_id ≠ "a") (fun _ => true)
        [⟨"a", "t1", "p1"⟩, ⟨"b", "t2", "p2"⟩] =
      ([], [], some RunError.databaseError) := by
  refine ⟨by decide, by decide⟩

/-- C4 amended: a store or webhook failure on one video stops the loop —
videos after the failing one are neither persisted nor delivered — and the
raised `DatabaseError`/`DiscordWebhookError` is caught and logged in `main`,
so the run still ends as a logged error rather than a crash. -/
theorem per_video_failure_aborts_loop (saveOk sendOk : NewVideo → Bool)
    (v : NewVideo) (rest : List NewVideo) :
    (saveOk v = false →
      publish_loop saveOk sendOk (v :: rest) =
        ([], [], some RunError.databaseError) ∧
      main_outcome (some RunError.databaseError) =
        Outcome.loggedError RunError.databaseError) ∧
    (saveOk v = true → sendOk v = false →
      publish_loop saveOk sendOk (v :: rest) =
        ([v.video_id], [], some RunError.webhookError) ∧
      main_outcome (some RunError.webhookError) =
        Outcome.loggedError RunError.webhookError) := by
  constructor
  · intro hs
    rw [publish_loop]
    simp [hs, main_outcome]
  · intro hs hn
    rw [publish_loop]
    simp [hs, hn, main_outcome]

/-- C4 amended, witness: a failing first save with one further video. -/
theorem per_video_failure_aborts_loop_witness :
    publish_loop (fun _ => false) (fun _ => true)
        [⟨"a", "t", "p"⟩, ⟨"b", "t2", "p2"⟩] =
      ([], [], some RunError.databaseError) ∧
    main_outcome (some RunError.databaseError) =
      Outcome.loggedError RunError.databaseError :=
  (per_video_failure_aborts_loop (fun _ => false) (fun _ => true)
    ⟨"a", "t", "p"⟩ [⟨"b", "t2", "p2"⟩]).1 rfl

/-- C5: with at least one clause present the date filter accepts a video
iff some present clause is satisfied (clauses are OR'd), and the three
spec examples behave as claimed: with only `past:7d` (clock at 2024-06-15) a
video published 10 days earlier is rejected and one 3 days earlier passes;
with only `since:2024-01-01` a video published 2024-06-01 passes; with only
`until:2024-01-01` it is rejected. -/
theorem date_filter_or_semantics :
    (∀ (fs : String) (now : Int) (f : DateFilter) (pa : String) (pub : Int),
      parse_date_filter fs now = some f →
      (f.since_date ≠ none ∨ f.until_date ≠ none ∨ f.past_date ≠ none) →
      parsePublishedAt pa = some pub →
      (is_within_date_range pa f.since_date f.until_date f.past_date = some true ↔
        clauseSatisfied pub f)) ∧
    (∀ now : Int,
      parse_date_filter "past:7d" now = some ⟨none, none, some (now - 7 * 86400)⟩) ∧
    is_within_date_range "2024-06-05T00:00:00Z" none none
      (some (dateSeconds 2024 6 15 - 7 * 86400)) = some false ∧
    is_within_date_range "2024-06-12T00:00:00Z" none none
      (some (dateSeconds 2024 6 15 - 7 * 86400)) = some true ∧
    parse_date_filter "since:2024-01-01" 0 =
      some ⟨some (dateSeconds 2024 1 1), none, none⟩ ∧
    is_within_date_range "2024-06-01T00:00:00Z"
      (some (dateSeconds 2024 1 1)) none none = some true ∧
    parse_date_filter "until:2024-01-01" 0 =
      some ⟨none, some (dateSeconds 2024 1 1), none⟩ ∧
    is_within_date_range "2024-06-01T00:00:00Z" none
      (some (dateSeconds 2024 1 1)) none = some false := by
  refine ⟨?_, fun now => rfl, by decide, by decide, by decide, by decide, by decide, by decide⟩
  intro fs now f pa pub hparse hpres hpub
  rw [is_within_date_range, hpub]
  simp only [Option.map_some', Option.some.injEq]
  cases hp : f.past_date <;> cases hs : f.since_date <;> cases hu : f.until_date <;>
    simp [clauseSatisfied, hp, hs, hu, decide_eq_true_eq, or_assoc]

/-- C5 witness: the general OR-semantics theorem applied to the parsed
`past:7d` filter and a video three days old. -/
theorem date_filter_or_semantics_witness :
    is_within_date_range "2024-06-12T00:00:00Z" none none
      (some (dateSeconds 2024 6 15 - 7 * 86400)) = some true :=
  (date_filter_or_semantics.1 "past:7d" (dateSeconds 2024 6 15)
      ⟨none, none, some (dateSeconds 2024 6 15 - 7 * 86400)⟩
      "2024-06-12T00:00:00Z" (dateSeconds 2024 6 12)
      (by decide) (by decide) (by decide)).mpr
    (Or.inl ⟨dateSeconds 2024 6 15 - 7 * 86400, rfl, by decide⟩)

/-- C6: a video id already present in the store at the start of the run is
dropped by the dedup check before the date and keyword filters, never enters
the accepted list, and is therefore never saved nor delivered by the
persist/publish loop, whatever the store and webhook outcomes are. -/
theorem dedup_blocks_redelivery (env : PipeEnv) (vids : List String)
    (l : List NewVideo) (vid : String) (saveOk sendOk : NewVideo → Bool)
    (hrun : process_new_videos env vids = some l)
    (hid : vid ∈ env.existing) :
    vid ∉ l.map (fun v => v.video_id) ∧
    vid ∉ (publish_loop saveOk sendOk l).1 ∧
    vid ∉ (publish_loop saveOk sendOk l).2.1 := by
  have hmap := pnv_map_eq_filter env vids l hrun
  have hnot : vid ∉ l.map (fun v => v.video_id) := by
    intro hmem
    rw [hmap] at hmem
    have := (List.mem_filter.mp hmem).2
    rw [acceptsB_of_mem_existing env vid hid] at this
    exact absurd this (by simp)
  exact ⟨hnot,
    fun hmem => hnot ((publish_loop_saved_mem saveOk sendOk l vid).1 hmem),
    fun hmem => hnot ((publish_loop_saved_mem saveOk sendOk l vid).2 hmem)⟩

/-- C6 witness: a store holding id `x`; rerunning on candidates `x`, `y`
accepts only `y`, and `x` is neither saved nor delivered. -/
theorem dedup_blocks_redelivery_witness :
    "x" ∉ ([⟨"y", "t", "p"⟩] : List NewVideo).map (fun v => v.video_id) ∧
    "x" ∉ (publish_loop (fun _ => true) (fun _ => true)
             [(⟨"y", "t", "p"⟩ : NewVideo)]).1 ∧
    "x" ∉ (publish_loop (fun _ => true) (fun _ => true)
             [(⟨"y", "t", "p"⟩ : NewVideo)]).2.1 :=
  dedup_blocks_redelivery
    ⟨true, "", fun _ => some ⟨"t", "p"⟩, ["x"], none, none, none⟩
    ["x", "y"] [⟨"y", "t", "p"⟩] "x" (fun _ => true) (fun _ => true)
    rfl (by decide)

/-- C7 counterexample: the playlist pagination loop has no page-count
ceiling.  Against an upstream serving four one-item pages (the first three
with continuation tokens) under a cap of 10, `fetch_playlist_videos` makes
4 page calls — more than the claimed budget of 3 for playlist mode. -/
theorem playlist_call_ceiling_counterexample :
    (fetch_playlist_videos 10
      [⟨[⟨"v1", "public"⟩], true⟩, ⟨[⟨"v2", "public"⟩], true⟩,
       ⟨[⟨"v3", "public"⟩], true⟩, ⟨[⟨"v4", "public"⟩], false⟩]).2 = 4 ∧
    ¬ (4 : Nat) ≤ 3 := by
  refine ⟨rfl, by decide⟩

/-- C7 amended: channel mode makes at most 3 page calls and search mode at
most 5, whatever the upstream serves; playlist mode has no internal ceiling
and stops only on the cap or on upstream exhaustion, so its call count is
bounded only by the number of upstream pages. -/
theorem pagination_call_bounds :
    (∀ (maxRes : Nat) (pages : List Page),
      (fetch_channel_videos maxRes pages).2 ≤ 3) ∧
    (∀ (maxRes : Nat) (pages : List Page),
      (fetch_search_videos maxRes pages).2 ≤ 5) ∧
    (∀ (maxRes : Nat) (pages : List Page),
      (fetch_playlist_videos maxRes pages).2 ≤ pages.length + 1) := by
  refine ⟨fun maxRes pages => ?_, fun maxRes pages => ?_, fun maxRes pages => ?_⟩
  · have := channelLoop_calls maxRes pages [] 0 0
    simpa [fetch_channel_videos] using this
  · have := searchLoop_calls maxRes pages [] 0 0
    simpa [fetch_search_videos] using this
  · have := playlistLoop_calls maxRes pages [] 0
    rw [fetch_playlist_videos]
    cases hres : playlistLoop maxRes pages [] 0 with
    | mk items calls =>
      rw [hres] at this
      simpa using this

/-- C8 counterexample: zero-value components are not omitted in general —
one hour and thirty seconds renders as "1h 0m 30s", zero minutes
included. -/
theorem duration_zero_component_counterexample :
    parse_duration "PT1H30S" Lang.english = some "1h 0m 30s" ∧
    ("1h 0m 30s" : String) ≠ "1h 30s" := by
  refine ⟨rfl, by decide⟩

/-- C8 amended: duration formatting drops only the *leading* zero groups
(hours when the total is under an hour, hours and minutes when under a
minute); inside a rendered form, zero minutes or seconds are printed.  The
spec's concrete example is as claimed in both languages. -/
theorem duration_formatting_amended :
    parse_duration "PT1H5M30S" Lang.english = some "1h 5m 30s" ∧
    parse_duration "PT1H5M30S" Lang.korean = some "1시간 5분 30초" ∧
    parse_duration "PT1H30S" Lang.english = some "1h 0m 30s" ∧
    parse_duration "PT2M0S" Lang.english = some "2m 0s" ∧
    parse_duration "PT45S" Lang.english = some "45s" ∧
    parse_duration "PT45S" Lang.korean = some "45초" := by
  refine ⟨rfl, rfl, rfl, rfl, rfl, rfl⟩

/-- C9: `INSERT OR REPLACE` keyed by the `video_id` primary key is an
idempotent upsert: saving preserves key uniqueness, and saving the same
record twice leaves the table exactly as saving it once. -/
theorem save_video_upsert (v : NewVideo) (table : List NewVideo)
    (h : (table.map (fun r => r.video_id)).Nodup) :
    ((save_video v table).map (fun r => r.video_id)).Nodup ∧
    save_video v (save_video v table) = save_video v table := by
  constructor
  · rw [save_video, List.map_append]
    apply List.Nodup.append
    · exact ((List.filter_sublist table).map (fun r => r.video_id)).nodup h
    · simp
    · intro x hx hx'
      simp only [List.map_cons, List.map_nil, List.mem_singleton] at hx'
      subst hx'
      obtain ⟨r, hr, hrx⟩ := List.mem_map.mp hx
      have := List.of_mem_filter hr
      simp at this
      exact this hrx
  · unfold save_video
    rw [List.filter_append, List.filter_filter]
    simp

/-- C9 witness: saving a record into an empty table. -/
theorem save_video_upsert_witness :
    ((save_video ⟨"a", "t", "p"⟩ []).map (fun r => r.video_id)).Nodup ∧
    save_video ⟨"a", "t", "p"⟩ (save_video ⟨"a", "t", "p"⟩ []) =
      save_video ⟨"a", "t", "p"⟩ [] :=
  save_video_upsert ⟨"a", "t", "p"⟩ [] (by simp)

/-- C10: a detail-mode send goes to the detail webhook when one is
configured (set and non-empty) and falls back to the main webhook when it is
unset or empty; a non-detail send always goes to the main webhook. -/
theorem webhook_url_selection (mainUrl : String) :
    (∀ u : String, u ≠ "" → send_to_discord_url true (some u) mainUrl = u) ∧
    send_to_discord_url true none mainUrl = mainUrl ∧
    send_to_discord_url true (some "") mainUrl = mainUrl ∧
    (∀ d : Option String, send_to_discord_url false d mainUrl = mainUrl) := by
  refine ⟨fun u hu => ?_, rfl, by simp [send_to_discord_url], fun d => ?_⟩
  · simp [send_to_discord_url, hu]
  · cases d with
    | none => rfl
    | some u => simp [send_to_discord_url]

/-- C10 witness at concrete URLs. -/
theorem webhook_url_selection_witness :
    send_to_discord_url true (some "D") "M" = "D" ∧
    send_to_discord_url false (some "D") "M" = "M" ∧
    send_to_discord_url true none "M" = "M" :=
  ⟨(webhook_url_selection "M").1 "D" (by decide),
   (webhook_url_selection "M").2.2.2 (some "D"),
   (webhook_url_selection "M").2.1⟩

end YTD
